import Mathlib

/-
Verification of the wallsy pipeline engine and artifact store.

Shallow embedding of the relevant parts of the repository:
  * wallsy/subcommands/desktop.py  (the desktop sink and its dispatch loop)
  * wallsy/cli_utils/decorators.py (the stream / generator stage adapters)
  * wallsy/cli.py                  (process_pipeline / process_stream, repeat loop)
  * wallsy/image_handler.py        (download_image)
  * wallsy/cli_utils/utils.py      (the load dispatcher: _load_file and _load_url)
  * src/wallsy/wallpaper_handler.py (update_wallpaper)

Python generators are modelled by explicit state passing; machine state
(filesystem, settings store, call counters) is threaded explicitly; fallible
code returns Except.
-/

set_option autoImplicit false

namespace Wallsy

variable {α : Type} {β : Type}

instance {γ δ : Type} [DecidableEq γ] [DecidableEq δ] : DecidableEq (Except γ δ) :=
  fun x y =>
    match x, y with
    | Except.ok a, Except.ok b =>
      if h : a = b then isTrue (by rw [h]) else
        isFalse (fun hc => h (by injection hc))
    | Except.error a, Except.error b =>
      if h : a = b then isTrue (by rw [h]) else
        isFalse (fun hc => h (by injection hc))
    | Except.ok _, Except.error _ => isFalse (fun hc => Except.noConfusion hc)
    | Except.error _, Except.ok _ => isFalse (fun hc => Except.noConfusion hc)

/-! ## The desktop sink dispatch (wallsy/subcommands/desktop.py, dispatch)

The dispatch generator pulls elements from the stream with next().  Each
successfully pulled element (including the first, speculative one) is passed
to the set-mode handler and its result is yielded.  If StopIteration is
raised on the very first pull (local variable file still None), the get-mode
handler runs once and its single result is yielded.  Path objects are always
truthy in Python, so the walrus condition of the while loop never exits on a
pulled element.
-/

/-- Observable events of one run of the desktop dispatch loop: a set-mode
invocation on an artifact, or a get-mode invocation. -/
inductive DeskEv (α : Type) where
  | set (a : α)
  | get
  deriving DecidableEq, Repr

/-- The dispatch loop of desktop.py, with the Python local variable file
made explicit: it is None before the first pull and holds the last pulled
element afterwards.  StopIteration on the first pull (second argument still
none) runs the get branch once. -/
def dispatchAcc : List α → Option α → List (DeskEv α)
  | [], none => [DeskEv.get]
  | [], some _ => []
  | a :: rest, _ => DeskEv.set a :: dispatchAcc rest (some a)

/-- dispatch of desktop.py applied to a materialized stream. -/
def dispatch (stream : List α) : List (DeskEv α) :=
  dispatchAcc stream none

/-- Artifacts delivered downstream by the dispatch generator: the set branch
yields the processed artifact itself (the set-mode handler returns its input
file); the get branch yields the one artifact retrieved from the settings
store (getArt). -/
def dispatchDelivered (getArt : α) (stream : List α) : List α :=
  (dispatch stream).map (fun e =>
    match e with
    | DeskEv.set a => a
    | DeskEv.get => getArt)

theorem dispatchAcc_some (rest : List α) (y : α) :
    dispatchAcc rest (some y) = rest.map DeskEv.set := by
  induction rest generalizing y with
  | nil => rfl
  | cons a t ih => simp [dispatchAcc, ih]

theorem dispatch_eq (xs : List α) :
    dispatch xs = if xs.isEmpty then [DeskEv.get] else xs.map DeskEv.set := by
  cases xs with
  | nil => rfl
  | cons a t => simp [dispatch, dispatchAcc, dispatchAcc_some]

/-- C1: on a non-empty stream the desktop sink runs set-mode exactly once per
artifact, in order, dropping and duplicating nothing (the speculatively
consumed first element included); on an empty stream it runs get-mode exactly
once and its single result is the only artifact delivered downstream.  Holds
for streams of every length. -/
theorem c1_sink_dispatch (xs : List α) (getArt : α) :
    dispatch xs = (if xs.isEmpty then [DeskEv.get] else xs.map DeskEv.set) ∧
    dispatchDelivered getArt xs = (if xs.isEmpty then [getArt] else xs) := by
  refine ⟨dispatch_eq xs, ?_⟩
  unfold dispatchDelivered
  rw [dispatch_eq]
  cases xs with
  | nil => rfl
  | cons a t =>
    have h : ∀ l : List α,
        (l.map DeskEv.set).map (fun e =>
          match e with
          | DeskEv.set a => a
          | DeskEv.get => getArt) = l := by
      intro l
      induction l with
      | nil => rfl
      | cons x rest ih => simpa using ih
    simpa using h (a :: t)

/-! ## Lazy generator expressions (wallsy/cli_utils/decorators.py, wallsy/cli.py)

A Python generator object is modelled as a syntax tree of deferred
computations; pulling is a separate operation (nextg).  The base constructor
is the underlying initial generator (a finite list of remaining items plus a
count of items already consumed); ibase is an infinite source that never
exhausts.  mapG is the genexpr created by the generator decorator
(stream.stream = (func(file) for file in stream.stream)); chainG is the
genexpr created by the stream decorator (chain(stream.stream, inner()) where
inner() runs func lazily on first pull); dispatchG is the suspended dispatch
generator created by the desktop sink (stream.stream = dispatch(stream.stream)).
Source bodies take the global invocation counter as argument so that distinct
invocations are observable; pending = some produce marks a body that has not
run yet, pending = none (with buf the leftover items) a body that has. -/
inductive GenExpr (α : Type) where
  | base (remaining : List α) (consumed : Nat)
  | ibase (f : Nat → α) (consumed : Nat)
  | mapG (f : α → α) (g : GenExpr α)
  | chainG (g : GenExpr α) (pending : Option (Nat → List α)) (buf : List α)
  | dispatchG (g : GenExpr α) (pulled : Bool) (done : Bool) (setF : α → α) (getF : Unit → α)

/-- A stage as declared on the command line, before composition: a source
(decorated with the stream adapter, extend_stream), a transform (decorated
with the generator adapter, make_generator), or the desktop sink. -/
inductive Stage (α : Type) where
  | src (produce : Nat → List α)
  | tr (f : α → α)
  | snk (setF : α → α) (getF : Unit → α)

/-- Invoking one stage callback on the current stream: each adapter only
wraps the stream in a new deferred node (pure construction). -/
def applyStage (g : GenExpr α) : Stage α → GenExpr α
  | Stage.src p => GenExpr.chainG g (some p) []
  | Stage.tr f => GenExpr.mapG f g
  | Stage.snk s gf => GenExpr.dispatchG g false false s gf

/-- The composition loop of process_stream (wallsy/cli.py):
for callback in callbacks: stream = callback(stream). -/
def composeAll (stages : List (Stage α)) (g : GenExpr α) : GenExpr α :=
  stages.foldl applyStage g

/-- Number of elements so far pulled out of the underlying base generators. -/
def consumedCount : GenExpr α → Nat
  | GenExpr.base _ c => c
  | GenExpr.ibase _ c => c
  | GenExpr.mapG _ g => consumedCount g
  | GenExpr.chainG g _ _ => consumedCount g
  | GenExpr.dispatchG g _ _ _ _ => consumedCount g

/-- Number of deferred stage bodies that have already run: chain nodes whose
pending source body was executed, and dispatch nodes whose get branch ran. -/
def bodiesRun : GenExpr α → Nat
  | GenExpr.base _ _ => 0
  | GenExpr.ibase _ _ => 0
  | GenExpr.mapG _ g => bodiesRun g
  | GenExpr.chainG g p _ => bodiesRun g + (match p with | some _ => 0 | none => 1)
  | GenExpr.dispatchG g _ d _ _ => bodiesRun g + (if d then 1 else 0)

/-- One pull (next()) on a generator expression, threading the source-body
invocation counter.  Becomes relevant only once the execution driver starts
draining; composition never calls it. -/
def nextg : GenExpr α → Nat → Option (α × GenExpr α) × Nat
  | GenExpr.base [] _, σ => (none, σ)
  | GenExpr.base (x :: xs) c, σ => (some (x, GenExpr.base xs (c + 1)), σ)
  | GenExpr.ibase f c, σ => (some (f c, GenExpr.ibase f (c + 1)), σ)
  | GenExpr.mapG f g, σ =>
    match nextg g σ with
    | (none, σ2) => (none, σ2)
    | (some (a, g2), σ2) => (some (f a, GenExpr.mapG f g2), σ2)
  | GenExpr.chainG g p buf, σ =>
    match nextg g σ with
    | (some (a, g2), σ2) => (some (a, GenExpr.chainG g2 p buf), σ2)
    | (none, σ2) =>
      match p with
      | some produce =>
        match produce σ2 with
        | [] => (none, σ2 + 1)
        | y :: ys => (some (y, GenExpr.chainG g none ys), σ2 + 1)
      | none =>
        match buf with
        | [] => (none, σ2)
        | y :: ys => (some (y, GenExpr.chainG g none ys), σ2)
  | GenExpr.dispatchG g pulled d sF gF, σ =>
    if d then (none, σ)
    else
      match nextg g σ with
      | (some (a, g2), σ2) => (some (sF a, GenExpr.dispatchG g2 true d sF gF), σ2)
      | (none, σ2) =>
        if pulled then (none, σ2)
        else (some (gF (), GenExpr.dispatchG g pulled true sF gF), σ2)

/-- Big-step drain of a generator expression (the for loop of the execution
driver pulling to exhaustion), threading the source-body invocation counter.
Draining an infinite base never terminates in Python, hence none there. -/
def toListG : GenExpr α → Nat → Option (List α × Nat)
  | GenExpr.base rem _, σ => some (rem, σ)
  | GenExpr.ibase _ _, _ => none
  | GenExpr.mapG f g, σ =>
    match toListG g σ with
    | none => none
    | some (as, σ2) => some (as.map f, σ2)
  | GenExpr.chainG g p buf, σ =>
    match toListG g σ with
    | none => none
    | some (as, σ2) =>
      match p with
      | some produce => some (as ++ produce σ2, σ2 + 1)
      | none => some (as ++ buf, σ2)
  | GenExpr.dispatchG g pulled d sF gF, σ =>
    if d then some ([], σ)
    else
      match toListG g σ with
      | none => none
      | some (as, σ2) =>
        match as with
        | [] => if pulled then some ([], σ2) else some ([gF ()], σ2)
        | _ => some (as.map sF, σ2)

/-- Number of source-stage bodies a full drain of the composed pipeline will
invoke: one per src stage. -/
def srcCalls : List (Stage α) → Nat
  | [] => 0
  | Stage.src _ :: rest => srcCalls rest + 1
  | Stage.tr _ :: rest => srcCalls rest
  | Stage.snk _ _ :: rest => srcCalls rest

theorem composeAll_nil (g : GenExpr α) : composeAll [] g = g := rfl

theorem composeAll_cons (st : Stage α) (stages : List (Stage α)) (g : GenExpr α) :
    composeAll (st :: stages) g = composeAll stages (applyStage g st) := rfl

/-- C4: invoking any chain of stage callbacks over any stream — the infinite
base included — is pure construction: it pulls no element from the initial or
any intermediate stream and runs no stage body (deferred until the execution
driver drains).  Totality of composeAll in this model is the immediate
termination of composition. -/
theorem c4_composition_pure (stages : List (Stage α)) (g : GenExpr α) :
    consumedCount (composeAll stages g) = consumedCount g ∧
    bodiesRun (composeAll stages g) = bodiesRun g := by
  induction stages generalizing g with
  | nil => exact ⟨rfl, rfl⟩
  | cons st rest ih =>
    rw [composeAll_cons]
    refine ⟨?_, ?_⟩
    · rw [(ih (applyStage g st)).1]
      cases st <;> rfl
    · rw [(ih (applyStage g st)).2]
      cases st <;> simp [applyStage, bodiesRun]

/-! ## Transform chains (the generator adapter, wallsy/cli_utils/decorators.py) -/

/-- The function computed by chaining transform bodies in invocation order. -/
def chainApply (fs : List (α → α)) (a : α) : α :=
  fs.foldl (fun x f => f x) a

theorem toListG_transforms (fs : List (α → α)) (g : GenExpr α) (σ : Nat)
    (as : List α) (σ2 : Nat) (h : toListG g σ = some (as, σ2)) :
    toListG (composeAll (fs.map Stage.tr) g) σ = some (as.map (chainApply fs), σ2) := by
  induction fs generalizing g as with
  | nil =>
    have hmap : ∀ l : List α, l.map (chainApply ([] : List (α → α))) = l := by
      intro l
      induction l with
      | nil => rfl
      | cons x t iht => simpa [chainApply] using iht
    simpa [composeAll, hmap] using h
  | cons f rest ih =>
    have h2 : toListG (GenExpr.mapG f g) σ = some (as.map f, σ2) := by
      simp [toListG, h]
    have h3 := ih (GenExpr.mapG f g) (as.map f) h2
    rw [List.map_cons, composeAll_cons]
    have happ : applyStage g (Stage.tr f) = GenExpr.mapG f g := rfl
    rw [happ, h3, List.map_map]
    have hfun : (chainApply rest ∘ f) = chainApply (f :: rest) := by
      funext a
      simp [chainApply]
    rw [hfun]

/-- C5: draining a chain of transform stages over a finite stream of N
artifacts yields exactly N artifacts, the i-th output being the composition
of the transform bodies applied to the i-th input — count- and
order-preserving. -/
theorem c5_transform_chain (fs : List (α → α)) (xs : List α) (σ : Nat) :
    toListG (composeAll (fs.map Stage.tr) (GenExpr.base xs 0)) σ =
      some (xs.map (chainApply fs), σ) ∧
    (xs.map (chainApply fs)).length = xs.length := by
  exact ⟨toListG_transforms fs (GenExpr.base xs 0) σ xs σ rfl, List.length_map xs _⟩

/-! ## The repeat loop (wallsy/cli.py, process_pipeline / process_stream)

process_stream reads obj.stream — the one initial generator object built at
group level — re-applies every stage callback to it, and drains the result.
The drain exhausts the shared underlying initial generator, so after a
completed drain its remaining items are [].  The while obj.repeat loop then
calls process_stream again over that same exhausted object; the stage
callbacks themselves are re-invoked, creating fresh deferred nodes (and so
fresh source-body invocations), but the initial stream is never rebuilt.
interval = 0 throughout, so the sleep is skipped. -/
structure PipeState (α : Type) where
  initRem : List α
  calls : Nat
  deriving DecidableEq, Repr

/-- One cycle of process_stream: compose all callbacks over obj.stream, then
drain.  Returns the artifacts pulled during the drain and the state after it
(the initial generator exhausted, the source-invocation counter advanced). -/
def process_stream (stages : List (Stage α)) (s : PipeState α) :
    Option (List α × PipeState α) :=
  match toListG (composeAll stages (GenExpr.base s.initRem 0)) s.calls with
  | none => none
  | some (out, σ2) => some (out, ⟨[], σ2⟩)

/-- Two iterations of the repeat loop (repeat stays true, interval 0):
process_stream once, then once more over the state it left behind.  Returns
each cycle's drained artifacts with the counter after that cycle. -/
def runTwoCycles (stages : List (Stage α)) (init : List α) (σ0 : Nat) :
    Option ((List α × Nat) × (List α × Nat)) :=
  match process_stream stages ⟨init, σ0⟩ with
  | none => none
  | some (out1, s1) =>
    match process_stream stages s1 with
    | none => none
    | some (out2, s2) => some ((out1, s1.calls), (out2, s2.calls))

theorem toListG_composeAll_calls (stages : List (Stage α)) (g : GenExpr α)
    (σ : Nat) (as : List α) (σ2 : Nat) (h : toListG g σ = some (as, σ2)) :
    ∃ out, toListG (composeAll stages g) σ = some (out, σ2 + srcCalls stages) := by
  induction stages generalizing g as σ2 with
  | nil =>
    exact ⟨as, by simpa [composeAll, srcCalls] using h⟩
  | cons st rest ih =>
    rw [composeAll_cons]
    cases st with
    | src p =>
      have h2 : toListG (applyStage g (Stage.src p)) σ = some (as ++ p σ2, σ2 + 1) := by
        simp [applyStage, toListG, h]
      obtain ⟨out, hout⟩ := ih (applyStage g (Stage.src p)) (as ++ p σ2) (σ2 + 1) h2
      refine ⟨out, ?_⟩
      rw [hout]
      have : σ2 + 1 + srcCalls rest = σ2 + srcCalls (Stage.src p :: rest) := by
        simp [srcCalls]
        omega
      rw [this]
    | tr f =>
      have h2 : toListG (applyStage g (Stage.tr f)) σ = some (as.map f, σ2) := by
        simp [applyStage, toListG, h]
      obtain ⟨out, hout⟩ := ih (applyStage g (Stage.tr f)) (as.map f) σ2 h2
      exact ⟨out, by simpa [srcCalls] using hout⟩
    | snk sF gF =>
      cases as with
      | nil =>
        have h2 : toListG (applyStage g (Stage.snk sF gF)) σ = some ([gF ()], σ2) := by
          simp [applyStage, toListG, h]
        obtain ⟨out, hout⟩ := ih (applyStage g (Stage.snk sF gF)) [gF ()] σ2 h2
        exact ⟨out, by simpa [srcCalls] using hout⟩
      | cons a t =>
        have h2 : toListG (applyStage g (Stage.snk sF gF)) σ =
            some ((a :: t).map sF, σ2) := by
          simp [applyStage, toListG, h]
        obtain ⟨out, hout⟩ := ih (applyStage g (Stage.snk sF gF)) ((a :: t).map sF) σ2 h2
        exact ⟨out, by simpa [srcCalls] using hout⟩

theorem process_stream_eq (stages : List (Stage α)) (s : PipeState α) :
    ∃ out, toListG (composeAll stages (GenExpr.base s.initRem 0)) s.calls =
        some (out, s.calls + srcCalls stages) ∧
      process_stream stages s = some (out, ⟨[], s.calls + srcCalls stages⟩) := by
  obtain ⟨out, hout⟩ :=
    toListG_composeAll_calls stages (GenExpr.base s.initRem 0) s.calls s.initRem s.calls rfl
  exact ⟨out, hout, by simp [process_stream, hout]⟩

/-- C2 counterexample: with the pipeline seeded by one artifact and a single
pass-through transform stage (the shape of wallsy FILE every 0), cycle 2
drains nothing, while composing and draining the pipeline afresh from the
original declarations delivers the seed artifact again — so cycle 2 is not
equivalent to a fresh composition. -/
theorem c2_counterexample :
    runTwoCycles [Stage.tr (fun x : Nat => x)] [5] 0 = some (([5], 0), ([], 0)) ∧
    toListG (composeAll [Stage.tr (fun x : Nat => x)] (GenExpr.base [5] 0)) 0 =
      some ([5], 0) ∧
    ([] : List Nat) ≠ [5] := by
  refine ⟨rfl, rfl, by decide⟩

/-- C2 amended: every cycle after the first re-invokes all stage callbacks
from the original declarations (each source body runs exactly once more per
cycle, at a fresh invocation index, never replaying a cached value), but over
the exhausted initial generator rather than a rebuilt stream; draining cycle
2 is equivalent to composing and draining the pipeline afresh whenever the
initial seed stream is empty. -/
theorem c2_amended (stages : List (Stage α)) (init : List α) (σ0 : Nat)
    (out1 out2 : List α) (σ1 σ2 : Nat)
    (h : runTwoCycles stages init σ0 = some ((out1, σ1), (out2, σ2))) :
    σ1 = σ0 + srcCalls stages ∧
    σ2 = σ1 + srcCalls stages ∧
    toListG (composeAll stages (GenExpr.base [] 0)) σ1 = some (out2, σ2) ∧
    (init = [] →
      toListG (composeAll stages (GenExpr.base init 0)) σ1 = some (out2, σ2)) := by
  obtain ⟨o1, ht1, hp1⟩ := process_stream_eq stages (⟨init, σ0⟩ : PipeState α)
  obtain ⟨o2, ht2, hp2⟩ :=
    process_stream_eq stages (⟨[], σ0 + srcCalls stages⟩ : PipeState α)
  unfold runTwoCycles at h
  rw [hp1] at h
  simp only at h
  rw [hp2] at h
  simp only [Option.some.injEq, Prod.mk.injEq] at h
  obtain ⟨⟨hout1, hσ1⟩, hout2, hσ2⟩ := h
  subst hout1 hout2
  constructor
  · exact hσ1.symm
  constructor
  · rw [← hσ1, ← hσ2]
  constructor
  · rw [← hσ1, ← hσ2]
    exact ht2
  · intro hinit
    subst hinit
    rw [← hσ1, ← hσ2]
    exact ht2

/-- C2 amended witness at a concrete pipeline: one source stage, empty seed. -/
theorem c2_amended_witness :
    runTwoCycles [Stage.src (fun n => [n + 10])] ([] : List Nat) 0 =
      some (([10], 1), ([11], 2)) ∧
    (1 = 0 + srcCalls [Stage.src (fun n : Nat => [n + 10])] ∧
     2 = 1 + srcCalls [Stage.src (fun n : Nat => [n + 10])] ∧
     toListG (composeAll [Stage.src (fun n : Nat => [n + 10])]
       (GenExpr.base ([] : List Nat) 0)) 1 = some ([11], 2) ∧
     (([] : List Nat) = [] →
       toListG (composeAll [Stage.src (fun n : Nat => [n + 10])]
         (GenExpr.base ([] : List Nat) 0)) 1 = some ([11], 2))) :=
  ⟨rfl, c2_amended _ _ _ _ _ _ _ rfl⟩

/-! ## Paths and filesystem (pathlib / shutil model)

An absolute path is its list of components (pathlib drops empty and dot
segments when joining).  The filesystem is an association list from paths to
entries, looked up newest-first; writing a file prepends.  File contents are
abstract (β); image sniffing (PIL Image.open / imghdr.what) is a parameter
decode : β → Option String returning the sniffed format. -/
abbrev FPath := List String

/-- A filesystem entry: a regular file with contents, or a directory. -/
inductive Entry (β : Type) where
  | file (content : β)
  | dir
  deriving DecidableEq, Repr

abbrev FS (β : Type) := List (FPath × Entry β)

def fsGet : FS β → FPath → Option (Entry β)
  | [], _ => none
  | (q, e) :: rest, p => if p = q then some e else fsGet rest p

/-- Writing a file (copy2 / image.save): overwrites whatever was at p. -/
def fsPut (fs : FS β) (p : FPath) (e : Entry β) : FS β :=
  (p, e) :: fs

/-- pathlib join with a single name: empty and dot segments are dropped. -/
def pjoin (d : FPath) (n : String) : FPath :=
  if n = "" ∨ n = "." then d else d ++ [n]

/-- Path.name of a component path. -/
def pnameC (p : FPath) : String :=
  (p.getLast?).getD ""

/-- str.lower of Python, character by character. -/
def lowerStr (s : String) : String :=
  String.mk (s.data.map Char.toLower)

/-- str.split on a single separator character. -/
def splitChar (sep : Char) : List Char → List (List Char)
  | [] => [[]]
  | c :: rest =>
    let r := splitChar sep rest
    if c == sep then [] :: r
    else
      match r with
      | [] => [[c]]
      | h :: t => (c :: h) :: t

def leadsWith : List Char → List Char → Bool
  | [], _ => true
  | _ :: _, [] => false
  | p :: ps, c :: cs => p == c && leadsWith ps cs

/-- Split a character list at the first occurrence of a pattern, returning
the part before it and the part after it. -/
def splitFirstSeq (pat : List Char) : List Char → Option (List Char × List Char)
  | [] => if pat.isEmpty then some ([], []) else none
  | c :: rest =>
    if leadsWith pat (c :: rest) then some ([], (c :: rest).drop pat.length)
    else
      match splitFirstSeq pat rest with
      | none => none
      | some (b, a) => some (c :: b, a)

/-- Path(s).name for a raw string: split on the separator, drop empty and
dot segments (as pathlib parsing does), take the last component. -/
def pnameS (s : String) : String :=
  (((((splitChar '/' s.data).map String.mk).filter
    (fun c => !(c == "" || c == "."))).getLast?).getD "")

/-- urlparse(u).path for common absolute URLs: strip fragment and query,
then everything from the first separator after the netloc; a URL with no
scheme is all path. -/
def urlparsePath (u : String) : String :=
  let noFrag := u.data.takeWhile (fun c => c != '#')
  let noQ := noFrag.takeWhile (fun c => c != '?')
  match splitFirstSeq ([':', '/', '/']) noQ with
  | some (_, rest) =>
    (match splitFirstSeq (['/']) rest with
     | none => ""
     | some (_, after) => String.mk ('/' :: after))
  | none => String.mk noQ

/-- Index of the last dot in a list of characters, if any. -/
def lastDotIdx (cs : List Char) : Option Nat :=
  ((List.range cs.length).filter (fun i => cs.getD i ' ' == '.')).getLast?

/-- Whether pathlib reports a non-empty suffix for this file name:
name.rfind applied to the dot must land strictly inside the name
(0 < i < len - 1). -/
def nameHasSuffix (n : String) : Bool :=
  match lastDotIdx n.toList with
  | none => false
  | some i => decide (0 < i ∧ i < n.toList.length - 1)

/-- Path(str(p) + dot + ext): appends the extension to the final component. -/
def appendExt (p : FPath) (ext : String) : FPath :=
  match p.reverse with
  | [] => ["." ++ "." ++ ext]
  | lastc :: restRev => restRev.reverse ++ [lastc ++ "." ++ ext]

/-! ## The artifact store (wallsy/image_handler.py, wallsy/cli_utils/utils.py) -/

/-- The two exception classes of image_handler.py, each carrying its
message string. -/
inductive ImageError where
  | imageDownloadError (msg : String)
  | invalidImageError (msg : String)
  deriving DecidableEq, Repr

/-- Outcome of requests.get(url) with redirects already followed: either a
transport error (requests.exceptions.RequestException) or a response with
its status code, its final effective URL (r.url) and its body bytes. -/
inductive HttpResult (β : Type) where
  | failed (msg : String)
  | resp (status : Nat) (finalUrl : String) (content : β)
  deriving DecidableEq, Repr

/-- download_image of wallsy/image_handler.py.  Checks the computed
destination before issuing the request (refusing directories and existing
files), then performs the request, raise_for_status (HTTPError exactly on
4xx/5xx), decodes the body with PIL, renames the destination from the
effective URL when a redirect happened, appends the sniffed format as
extension when the name has no suffix, and saves (image.save overwrites
whatever is at the final path).  Message interpolation of concrete paths is
elided; the distinguishing message texts are kept. -/
def download_image (decode : β → Option String) (fs : FS β) (url : String)
    (file_path : FPath) (http : HttpResult β) : FS β × Except ImageError FPath :=
  match fsGet fs file_path with
  | some Entry.dir =>
    (fs, Except.error (ImageError.imageDownloadError
      "Destination file is a directory."))
  | some (Entry.file _) =>
    (fs, Except.error (ImageError.imageDownloadError
      "File already exists at destination."))
  | none =>
    match http with
    | HttpResult.failed m => (fs, Except.error (ImageError.imageDownloadError m))
    | HttpResult.resp st fu content =>
      if 400 ≤ st then
        (fs, Except.error (ImageError.imageDownloadError
          ("Download error: something went wrong trying to access " ++ url ++
            " (status code " ++ toString st ++ ")")))
      else
        match decode content with
        | none =>
          (fs, Except.error (ImageError.imageDownloadError
            ("Download error: the target resource at " ++ url ++
              " does not appear to be an image.")))
        | some fmt =>
          let d1 := if url ≠ fu
            then pjoin file_path.dropLast (pnameS (urlparsePath fu))
            else file_path
          let d2 := if nameHasSuffix (pnameC d1) then d1
            else appendExt d1 (lowerStr fmt)
          (fsPut fs d2 (Entry.file content), Except.ok d2)

/-- The loader error of wallsy/cli_utils/utils.py (WallsyLoadError), plus a
constructor for a Python exception that escapes the except clauses
(unreachable in the claims below). -/
inductive LoadErr where
  | wallsyLoadError (msg : String)
  | pythonError (msg : String)
  deriving DecidableEq, Repr

/-- The load dispatcher on a Path argument (_load_file of
wallsy/cli_utils/utils.py): validate the input as an image, then copy2 it to
mediaDir / name — warning and skipping only on SameFileError, id est when the
source resolves to the destination itself.  The Bool in the result records
whether the already-located warning was emitted.  copy2 with a directory as
destination copies into the directory. -/
def load_file (decode : β → Option String) (mediaDir : FPath) (fs : FS β)
    (file : FPath) : FS β × Except LoadErr (FPath × Bool) :=
  let dest := pjoin mediaDir (pnameC file)
  match fsGet fs file with
  | none =>
    (fs, Except.error (LoadErr.wallsyLoadError "Input could not be found."))
  | some Entry.dir => (fs, Except.error (LoadErr.pythonError "IsADirectoryError"))
  | some (Entry.file b) =>
    match decode b with
    | none =>
      (fs, Except.error (LoadErr.wallsyLoadError
        "Input does not appear to be an image."))
    | some _ =>
      if file = dest then (fs, Except.ok (dest, true))
      else
        match fsGet fs dest with
        | some Entry.dir =>
          (fsPut fs (pjoin dest (pnameC file)) (Entry.file b),
            Except.ok (dest, false))
        | _ => (fsPut fs dest (Entry.file b), Except.ok (dest, false))

/-- The load dispatcher on a parsed-URL argument (_load_url of
wallsy/cli_utils/utils.py): reject URLs whose path component is empty or the
bare slash before anything else, then delegate to download_image and wrap
both of its exception classes into WallsyLoadError carrying the same
message.  The http argument stands for what requests.get would return if a
request were issued. -/
def load_url (decode : β → Option String) (mediaDir : FPath) (fs : FS β)
    (http : HttpResult β) (u : String) : FS β × Except LoadErr FPath :=
  if urlparsePath u = "" ∨ urlparsePath u = "/" then
    (fs, Except.error (LoadErr.wallsyLoadError
      "please specify a link directly to an image resource."))
  else
    match download_image decode fs u (pjoin mediaDir (pnameS (urlparsePath u))) http with
    | (fs2, Except.ok p) => (fs2, Except.ok p)
    | (fs2, Except.error (ImageError.imageDownloadError m)) =>
      (fs2, Except.error (LoadErr.wallsyLoadError m))
    | (fs2, Except.error (ImageError.invalidImageError m)) =>
      (fs2, Except.error (LoadErr.wallsyLoadError m))

/-! ## The wallpaper handler (src/wallsy/wallpaper_handler.py) -/

inductive WallpaperErr where
  | wallpaperUpdateError (msg : String)
  deriving DecidableEq, Repr

/-- update_wallpaper: validate that the path exists and is a regular file,
then that imghdr.what recognizes its content (the what parameter), and only
then shell out to gsettings set (its success given by setOk).  The result is
the settings store after the call, the number of settings-write attempts
made, and the outcome.  The file-colon prefix strip and path resolution are
identity on the already-absolute component paths of this model. -/
def update_wallpaper (what : β → Option String) (fs : FS β)
    (settings : Option FPath) (setOk : Bool) (img_path : FPath) :
    Option FPath × Nat × Except WallpaperErr Unit :=
  match fsGet fs img_path with
  | none =>
    (settings, 0, Except.error (WallpaperErr.wallpaperUpdateError
      "Invalid path provided for image location: path does not exist."))
  | some Entry.dir =>
    (settings, 0, Except.error (WallpaperErr.wallpaperUpdateError
      "Invalid path provided for image location: path does not exist."))
  | some (Entry.file b) =>
    match what b with
    | none =>
      (settings, 0, Except.error (WallpaperErr.wallpaperUpdateError
        "Invalid image type provided."))
    | some _ =>
      if setOk then (some img_path, 1, Except.ok ())
      else
        (settings, 1, Except.error (WallpaperErr.wallpaperUpdateError
          "Could not set desktop background."))

/-! ## The required-input guard (wallsy/cli_utils/decorators.py) -/

/-- require_file: bind the call arguments, and if the file parameter is
None raise before invoking the wrapped callback; otherwise invoke it on the
original arguments.  The name argument is the wrapped function's dunder
name used in the message. -/
def require_file (name : String) (func : Option α → β) (file : Option α) :
    Except String β :=
  match file with
  | none =>
    Except.error ("Command " ++ name ++
      " did not receive a filename as part of pipeline. Did you run add or random to source an image?")
  | some _ => Except.ok (func file)

/-! ## Path helper lemmas -/

theorem pnameC_concat (xs : List String) (n : String) : pnameC (xs ++ [n]) = n := by
  simp [pnameC]

theorem appendExt_concat (xs : List String) (n ext : String) :
    appendExt (xs ++ [n]) ext = xs ++ [n ++ "." ++ ext] := by
  have h : (xs ++ [n]).reverse = n :: xs.reverse := by simp
  unfold appendExt
  rw [h]
  simp

theorem pnameS_ne_dot (s : String) : pnameS s ≠ "." := by
  unfold pnameS
  cases h : (((splitChar '/' s.data).map String.mk).filter
      (fun c => !(c == "" || c == "."))).getLast? with
  | none => decide
  | some x =>
    have hx : x ∈ ((splitChar '/' s.data).map String.mk).filter
        (fun c => !(c == "" || c == ".")) := by
      exact List.mem_of_mem_getLast? (Option.mem_def.mpr h)
    have hpred := List.of_mem_filter hx
    intro hxeq
    rw [Option.getD_some] at hxeq
    rw [hxeq] at hpred
    simp at hpred

theorem dest_of_redirect (fp : FPath) (fu : String) (n : String)
    (hn_eq : pnameS (urlparsePath fu) = n) (hn : n ≠ "") :
    pjoin fp.dropLast (pnameS (urlparsePath fu)) = fp.dropLast ++ [n] := by
  have hdot : n ≠ "." := hn_eq ▸ pnameS_ne_dot (urlparsePath fu)
  rw [hn_eq]
  unfold pjoin
  rw [if_neg]
  intro hor
  rcases hor with h1 | h1
  · exact hn h1
  · exact hdot h1

/-- C6 counterexample: a redirect whose effective URL has an empty final
path component.  Requesting .../random redirected to the site root saves
under the name of the destination parent directory with the sniffed
extension appended (media.png), which is neither the effective URL final
path component (empty) nor that component with the extension appended. -/
theorem c6_counterexample :
    (download_image (fun b : Nat => if b = 1 then some "PNG" else none) []
      "https://x.com/random" ["home", "media", "random"]
      (HttpResult.resp 200 "https://x.com/" 1)).2 =
      Except.ok ["home", "media.png"] ∧
    "https://x.com/random" ≠ "https://x.com/" ∧
    pnameS (urlparsePath "https://x.com/") = "" ∧
    pnameC ["home", "media.png"] = "media.png" ∧
    "media.png" ≠ "" ∧
    "media.png" ≠ "" ++ "." ++ "png" := by
  refine ⟨by decide, by decide, by decide, by decide, by decide, by decide⟩

/-- C6 amended: for every URL download answered from a different effective
URL whose path has a non-empty final component, the saved file name is that
final component, with an extension derived from the sniffed image format
appended when the component has no suffix — never the name derived from the
originally requested URL. -/
theorem c6_amended (decode : β → Option String) (fs : FS β) (url : String)
    (fp : FPath) (st : Nat) (fu : String) (content : β) (fmt : String) (n : String)
    (hne : fsGet fs fp = none) (hst : st < 400) (hdec : decode content = some fmt)
    (hredir : url ≠ fu) (hn_eq : pnameS (urlparsePath fu) = n) (hn : n ≠ "") :
    download_image decode fs url fp (HttpResult.resp st fu content) =
      (fsPut fs (fp.dropLast ++ [if nameHasSuffix n then n
          else n ++ "." ++ lowerStr fmt]) (Entry.file content),
        Except.ok (fp.dropLast ++ [if nameHasSuffix n then n
          else n ++ "." ++ lowerStr fmt])) ∧
    pnameC (fp.dropLast ++ [if nameHasSuffix n then n
        else n ++ "." ++ lowerStr fmt]) =
      (if nameHasSuffix n then n else n ++ "." ++ lowerStr fmt) := by
  have hd1 := dest_of_redirect fp fu n hn_eq hn
  have hnle : ¬ 400 ≤ st := by omega
  rcases Bool.eq_false_or_eq_true (nameHasSuffix n) with hsuf | hsuf <;>
    refine ⟨?_, ?_⟩ <;>
    simp [download_image, hne, hdec, hredir, hd1, hsuf, hnle,
      appendExt_concat, pnameC_concat]

/-- C6 amended witness: .../random redirecting to .../photo-123 with a PNG
body saves as photo-123.png. -/
theorem c6_amended_witness :
    fsGet ([] : FS Nat) ["home", "media", "random"] = none ∧
    (200 : Nat) < 400 ∧
    (fun b : Nat => if b = 1 then some "PNG" else none) 1 = some "PNG" ∧
    "https://x.com/random" ≠ "https://x.com/photo-123" ∧
    pnameS (urlparsePath "https://x.com/photo-123") = "photo-123" ∧
    "photo-123" ≠ "" ∧
    download_image (fun b : Nat => if b = 1 then some "PNG" else none) []
      "https://x.com/random" ["home", "media", "random"]
      (HttpResult.resp 200 "https://x.com/photo-123" 1) =
      (fsPut [] (["home", "media", "random"].dropLast ++
          [if nameHasSuffix "photo-123" then "photo-123"
            else "photo-123" ++ "." ++ lowerStr "PNG"]) (Entry.file 1),
        Except.ok (["home", "media", "random"].dropLast ++
          [if nameHasSuffix "photo-123" then "photo-123"
            else "photo-123" ++ "." ++ lowerStr "PNG"])) :=
  ⟨rfl, by decide, rfl, by decide, by decide, by decide,
    (c6_amended (fun b : Nat => if b = 1 then some "PNG" else none) []
      "https://x.com/random" ["home", "media", "random"] 200
      "https://x.com/photo-123" 1 "PNG" "photo-123" rfl (by decide) rfl
      (by decide) (by decide) (by decide)).1⟩

/-! ## C7: error taxonomy of the URL resolver -/

def isInvalidImageErr : Except ImageError FPath → Bool
  | Except.error (ImageError.invalidImageError _) => true
  | _ => false

def isDownloadErr : Except ImageError FPath → Bool
  | Except.error (ImageError.imageDownloadError _) => true
  | _ => false

/-- C7 counterexample: a successful 2xx response whose bytes do not decode
as an image makes download_image raise ImageDownloadError (the
download-failure class) with the not-an-image message — not the
InvalidImageError class the claim requires for this case. -/
theorem c7_counterexample :
    download_image (fun _ : Nat => none) [] "https://x.com/a.jpg" ["m", "a.jpg"]
      (HttpResult.resp 200 "https://x.com/a.jpg" 7) =
      ([], Except.error (ImageError.imageDownloadError
        "Download error: the target resource at https://x.com/a.jpg does not appear to be an image.")) ∧
    isInvalidImageErr (download_image (fun _ : Nat => none) [] "https://x.com/a.jpg"
      ["m", "a.jpg"] (HttpResult.resp 200 "https://x.com/a.jpg" 7)).2 = false ∧
    isDownloadErr (download_image (fun _ : Nat => none) [] "https://x.com/a.jpg"
      ["m", "a.jpg"] (HttpResult.resp 200 "https://x.com/a.jpg" 7)).2 = true := by
  refine ⟨by decide, by decide, by decide⟩

/-- C7 amended: transport errors and 4xx/5xx statuses yield
ImageDownloadError with the download-failure message; bytes that do not
decode as an image also yield ImageDownloadError, with the distinct
not-an-image message; a decodable body succeeds; and at the load boundary
both failure kinds collapse into the one WallsyLoadError class carrying the
message, so the kinds are distinguished only by message text. -/
theorem c7_amended (decode : β → Option String) (mediaDir : FPath) (fs : FS β)
    (url : String) (fp : FPath) (hne : fsGet fs fp = none) :
    (∀ m, download_image decode fs url fp (HttpResult.failed m) =
      (fs, Except.error (ImageError.imageDownloadError m))) ∧
    (∀ st fu content, 400 ≤ st →
      download_image decode fs url fp (HttpResult.resp st fu content) =
        (fs, Except.error (ImageError.imageDownloadError
          ("Download error: something went wrong trying to access " ++ url ++
            " (status code " ++ toString st ++ ")")))) ∧
    (∀ st fu content, st < 400 → decode content = none →
      download_image decode fs url fp (HttpResult.resp st fu content) =
        (fs, Except.error (ImageError.imageDownloadError
          ("Download error: the target resource at " ++ url ++
            " does not appear to be an image.")))) ∧
    (∀ st fu content fmt, st < 400 → decode content = some fmt →
      ∃ p, download_image decode fs url fp (HttpResult.resp st fu content) =
        (fsPut fs p (Entry.file content), Except.ok p)) ∧
    (∀ u2 http fs2 m,
      ¬(urlparsePath u2 = "" ∨ urlparsePath u2 = "/") →
      download_image decode fs2 u2 (pjoin mediaDir (pnameS (urlparsePath u2))) http =
        (fs2, Except.error (ImageError.imageDownloadError m)) →
      load_url decode mediaDir fs2 http u2 =
        (fs2, Except.error (LoadErr.wallsyLoadError m))) := by
  refine ⟨?_, ?_, ?_, ?_, ?_⟩
  · intro m
    simp [download_image, hne]
  · intro st fu content hst
    simp [download_image, hne, hst]
  · intro st fu content hst hdec
    simp [download_image, hne, hdec, Nat.not_le.mpr hst]
  · intro st fu content fmt hst hdec
    refine ⟨if nameHasSuffix (pnameC (if url ≠ fu
        then pjoin fp.dropLast (pnameS (urlparsePath fu)) else fp))
      then (if url ≠ fu then pjoin fp.dropLast (pnameS (urlparsePath fu)) else fp)
      else appendExt (if url ≠ fu
        then pjoin fp.dropLast (pnameS (urlparsePath fu)) else fp)
        (lowerStr fmt), ?_⟩
    simp [download_image, hne, hdec, Nat.not_le.mpr hst]
  · intro u2 http fs2 m hpath hdl
    simp [load_url, hpath, hdl]

/-- C7 amended witness: transport failure at a concrete input. -/
theorem c7_amended_witness :
    fsGet ([] : FS Nat) ["m", "a.jpg"] = none ∧
    download_image (fun _ : Nat => none) [] "https://x.com/a.jpg" ["m", "a.jpg"]
      (HttpResult.failed "connection reset") =
      ([], Except.error (ImageError.imageDownloadError "connection reset")) :=
  ⟨rfl, (c7_amended (fun _ : Nat => none) ["m"] [] "https://x.com/a.jpg"
    ["m", "a.jpg"] rfl).1 "connection reset"⟩

/-! ## C3: the no-overwrite guarantee -/

/-- C3 counterexample: a pre-existing file at the computed destination that
is distinct from the source is silently overwritten by the local-path
resolver (only SameFileError is caught), so its bytes change — no warning
and no skip. -/
theorem c3_counterexample :
    fsGet ((load_file (fun _ : Nat => some "JPEG") ["m"]
        [(["m", "cat.jpg"], Entry.file 0), (["src", "cat.jpg"], Entry.file 1)]
        ["src", "cat.jpg"]).1) ["m", "cat.jpg"] = some (Entry.file 1) ∧
    fsGet [(["m", "cat.jpg"], Entry.file 0), (["src", "cat.jpg"], Entry.file 1)]
      ["m", "cat.jpg"] = some (Entry.file (0 : Nat)) ∧
    (load_file (fun _ : Nat => some "JPEG") ["m"]
        [(["m", "cat.jpg"], Entry.file 0), (["src", "cat.jpg"], Entry.file 1)]
        ["src", "cat.jpg"]).2 = Except.ok (["m", "cat.jpg"], false) ∧
    some (Entry.file 1) ≠ some (Entry.file (0 : Nat)) := by
  refine ⟨by decide, by decide, by decide, by decide⟩

/-- C3 amended: the local-path resolver warns and skips the copy only when
the source is the destination file itself, and otherwise overwrites whatever
file is at the destination; the URL resolver refuses an existing file at the
pre-redirect computed destination before any request is issued, leaving the
filesystem unchanged, but a pre-existing file at a redirect-renamed
destination is overwritten by the save. -/
theorem c3_amended (decode : β → Option String) (mediaDir : FPath) (fs : FS β) :
    (∀ f b fmt, fsGet fs f = some (Entry.file b) → decode b = some fmt →
      f = pjoin mediaDir (pnameC f) →
      load_file decode mediaDir fs f = (fs, Except.ok (f, true))) ∧
    (∀ f b fmt c, fsGet fs f = some (Entry.file b) → decode b = some fmt →
      f ≠ pjoin mediaDir (pnameC f) →
      fsGet fs (pjoin mediaDir (pnameC f)) = some (Entry.file c) →
      load_file decode mediaDir fs f =
        (fsPut fs (pjoin mediaDir (pnameC f)) (Entry.file b),
          Except.ok (pjoin mediaDir (pnameC f), false)) ∧
      fsGet (load_file decode mediaDir fs f).1 (pjoin mediaDir (pnameC f)) =
        some (Entry.file b)) ∧
    (∀ url fp c http http2, fsGet fs fp = some (Entry.file c) →
      download_image decode fs url fp http =
        (fs, Except.error (ImageError.imageDownloadError
          "File already exists at destination.")) ∧
      download_image decode fs url fp http =
        download_image decode fs url fp http2) ∧
    (∀ url fp st fu content fmt n old, fsGet fs fp = none → st < 400 →
      decode content = some fmt → url ≠ fu → pnameS (urlparsePath fu) = n →
      n ≠ "" →
      fsGet fs (fp.dropLast ++ [if nameHasSuffix n then n
        else n ++ "." ++ lowerStr fmt]) = some (Entry.file old) →
      fsGet (download_image decode fs url fp (HttpResult.resp st fu content)).1
        (fp.dropLast ++ [if nameHasSuffix n then n
          else n ++ "." ++ lowerStr fmt]) = some (Entry.file content)) := by
  refine ⟨?_, ?_, ?_, ?_⟩
  · intro f b fmt hf hdec heq
    have h2 : load_file decode mediaDir fs f =
        (fs, Except.ok (pjoin mediaDir (pnameC f), true)) := by
      simp only [load_file, hf, hdec]
      rw [if_pos heq]
    rw [h2, ← heq]
  · intro f b fmt c hf hdec hne hdest
    have h2 : load_file decode mediaDir fs f =
        (fsPut fs (pjoin mediaDir (pnameC f)) (Entry.file b),
          Except.ok (pjoin mediaDir (pnameC f), false)) := by
      simp only [load_file, hf, hdec]
      rw [if_neg hne, hdest]
    refine ⟨h2, ?_⟩
    rw [h2]
    simp [fsGet, fsPut]
  · intro url fp c http http2 hf
    constructor <;> simp [download_image, hf]
  · intro url fp st fu content fmt n old hne hst hdec hredir hn_eq hn _hold
    have hd1 := dest_of_redirect fp fu n hn_eq hn
    rcases Bool.eq_false_or_eq_true (nameHasSuffix n) with hsuf | hsuf <;>
      simp [download_image, hne, hdec, hredir, hd1, hsuf, Nat.not_le.mpr hst,
        appendExt_concat, pnameC_concat, fsGet, fsPut]

/-- C3 amended witness: same-file warn-and-skip, and the URL refusal, at
concrete inputs. -/
theorem c3_amended_witness :
    fsGet [(["m", "cat.jpg"], Entry.file (0 : Nat))] ["m", "cat.jpg"] =
      some (Entry.file 0) ∧
    load_file (fun _ : Nat => some "JPEG") ["m"]
      [(["m", "cat.jpg"], Entry.file 0)] ["m", "cat.jpg"] =
      ([(["m", "cat.jpg"], Entry.file 0)], Except.ok (["m", "cat.jpg"], true)) ∧
    download_image (fun _ : Nat => some "JPEG")
      [(["m", "cat.jpg"], Entry.file 0)] "https://x.com/cat.jpg"
      ["m", "cat.jpg"] (HttpResult.failed "never sent") =
      ([(["m", "cat.jpg"], Entry.file 0)],
        Except.error (ImageError.imageDownloadError
          "File already exists at destination.")) :=
  ⟨by decide,
    (c3_amended (fun _ : Nat => some "JPEG") ["m"]
      [(["m", "cat.jpg"], Entry.file 0)]).1 ["m", "cat.jpg"] 0 "JPEG"
      (by decide) rfl (by decide),
    ((c3_amended (fun _ : Nat => some "JPEG") ["m"]
      [(["m", "cat.jpg"], Entry.file 0)]).2.2.1 "https://x.com/cat.jpg"
      ["m", "cat.jpg"] 0 (HttpResult.failed "never sent")
      (HttpResult.resp 200 "y" 1) (by decide)).1⟩

/-! ## C8: the required-input guard -/

/-- C8: a stage callback wrapped with require_file fails with the
missing-input message as soon as its file argument is absent, without
invoking the wrapped body (the outcome is the same for every wrapped body),
and on a present artifact it invokes the body on the original arguments. -/
theorem c8_require_file (name : String) (f g2 : Option α → β) (a : α) :
    require_file name f none = Except.error ("Command " ++ name ++
      " did not receive a filename as part of pipeline. Did you run add or random to source an image?") ∧
    require_file name f none = require_file name g2 none ∧
    require_file name f (some a) = Except.ok (f (some a)) :=
  ⟨rfl, rfl, rfl⟩

/-! ## C9: URLs without a path component -/

/-- C9: a URL whose parsed path is empty or the bare slash makes the URL
loader raise the load error before anything else: the filesystem is
untouched and the outcome does not depend on what an HTTP request would
have returned (none is issued). -/
theorem c9_empty_url_path (decode : β → Option String) (mediaDir : FPath)
    (fs : FS β) (http http2 : HttpResult β) (u : String)
    (h : urlparsePath u = "" ∨ urlparsePath u = "/") :
    load_url decode mediaDir fs http u =
      (fs, Except.error (LoadErr.wallsyLoadError
        "please specify a link directly to an image resource.")) ∧
    load_url decode mediaDir fs http u = load_url decode mediaDir fs http2 u := by
  refine ⟨?_, ?_⟩
  · unfold load_url
    rw [if_pos h]
  · unfold load_url
    rw [if_pos h, if_pos h]

/-- C9 witness: the site root URL. -/
theorem c9_witness :
    (urlparsePath "https://example.com/" = "" ∨
      urlparsePath "https://example.com/" = "/") ∧
    load_url (fun _ : Nat => some "PNG") ["m"] [] (HttpResult.failed "boom")
      "https://example.com/" =
      ([], Except.error (LoadErr.wallsyLoadError
        "please specify a link directly to an image resource.")) :=
  ⟨Or.inr (by decide),
    (c9_empty_url_path (fun _ : Nat => some "PNG") ["m"] []
      (HttpResult.failed "boom") (HttpResult.resp 200 "y" 0)
      "https://example.com/" (Or.inr (by decide))).1⟩

/-! ## C10: wallpaper update validation before the settings write -/

/-- C10: update_wallpaper raises the wallpaper-update error when the path
does not exist, is not a regular file, or its content is not recognized as
an image, and in each of those cases no settings write is attempted and the
settings store is unchanged; the write is attempted (exactly once) only
after all validation checks pass. -/
theorem c10_update_wallpaper (what : β → Option String) (fs : FS β)
    (settings : Option FPath) (setOk : Bool) (p : FPath) :
    (fsGet fs p = none →
      update_wallpaper what fs settings setOk p =
        (settings, 0, Except.error (WallpaperErr.wallpaperUpdateError
          "Invalid path provided for image location: path does not exist."))) ∧
    (fsGet fs p = some Entry.dir →
      update_wallpaper what fs settings setOk p =
        (settings, 0, Except.error (WallpaperErr.wallpaperUpdateError
          "Invalid path provided for image location: path does not exist."))) ∧
    (∀ b, fsGet fs p = some (Entry.file b) → what b = none →
      update_wallpaper what fs settings setOk p =
        (settings, 0, Except.error (WallpaperErr.wallpaperUpdateError
          "Invalid image type provided."))) ∧
    (∀ b t, fsGet fs p = some (Entry.file b) → what b = some t →
      (update_wallpaper what fs settings setOk p).2.1 = 1) := by
  refine ⟨?_, ?_, ?_, ?_⟩
  · intro h
    simp [update_wallpaper, h]
  · intro h
    simp [update_wallpaper, h]
  · intro b h hw
    simp [update_wallpaper, h, hw]
  · intro b t h hw
    cases setOk <;> simp [update_wallpaper, h, hw]

/-- C10 witness: missing path at a concrete store. -/
theorem c10_witness :
    fsGet [(["img"], Entry.file (2 : Nat))] ["missing"] = none ∧
    update_wallpaper (fun b : Nat => if b = 1 then some "png" else none)
      [(["img"], Entry.file 2)] (some ["old"]) true ["missing"] =
      (some ["old"], 0, Except.error (WallpaperErr.wallpaperUpdateError
        "Invalid path provided for image location: path does not exist.")) :=
  ⟨by decide,
    (c10_update_wallpaper (fun b : Nat => if b = 1 then some "png" else none)
      [(["img"], Entry.file 2)] (some ["old"]) true ["missing"]).1 (by decide)⟩

end Wallsy
